import Mathlib

/-!
# Verification of the manifest-normalization core (`src/cargo/util/toml/mod.rs`)

This file gives a shallow embedding, in Lean 4, of the data model and the
operations of the manifest-normalization core: workspace-inheritance
resolution (`ws_default`), dependency canonicalization
(`DefinedTomlDependency::from_workspace_dependency`), dependency
materialization (`TomlDependencyDetails::to_dependency`), profile validation
(`TomlProfile::validate` / `validate_override`), and the whole-manifest
checks of `do_read_manifest` / `into_real_manifest`.

Rust `Option<T>` is `Option T`, `CargoResult<T>` is `Except String T`
(carrying the error message), `BTreeMap<String, T>` is a `List (String × T)`
of its entries in key order, and `&mut Vec<String>` warning sinks become
explicit returned `List String` values appended in push order.  External
collaborators that are not part of the source file (the semver parser, the
URL parser, `SourceId` construction, the capability set) are modelled by
minimal structures noted at their definitions.
-/

namespace CargoToml

/-- `core::GitReference`: which git reference a git dependency points at. -/
inductive GitReference where
  | branch (s : String)
  | tag (s : String)
  | rev (s : String)
  | defaultBranch
deriving DecidableEq, Repr

/-- `core::SourceId`, restricted to the variants this file constructs:
`SourceId::for_git`, `SourceId::for_path`, `SourceId::alt_registry`,
`SourceId::for_registry` and `SourceId::crates_io`.  The URL/path payloads
are kept as the strings the source passes in. -/
inductive SourceId where
  | git (url : String) (reference : GitReference)
  | path (p : String)
  | altRegistry (name : String)
  | registryUrl (url : String)
  | cratesIo
deriving DecidableEq, Repr

/-- `SourceId::is_path`. -/
def SourceId.is_path : SourceId → Bool
  | .path _ => true
  | _ => false

/-- `core::dependency::DepKind`. -/
inductive DepKind where
  | normal
  | development
  | build
deriving DecidableEq, Repr

/-- The unstable capabilities this file consults (`core::Feature`). -/
inductive Feature where
  | profileOverrides
  | namedProfiles
  | stripFeature
  | renameDependency
  | publicDependency
deriving DecidableEq, Repr

/-- The manifest-key name of a capability, used in gate error messages. -/
def Feature.keyName : Feature → String
  | .profileOverrides => "profile-overrides"
  | .namedProfiles => "named-profiles"
  | .stripFeature => "strip"
  | .renameDependency => "rename-dependency"
  | .publicDependency => "public-dependency"

/-- The capability/feature set (`core::Features`), an external collaborator.
Modelled from the spec: `Features::new(declared_list) -> FeatureSet` with
`require(capability) -> Result<(), Error>` and `is_enabled(capability) ->
bool`; only the capabilities this file consults are carried. -/
structure Features where
  profileOverrides : Bool := false
  namedProfiles : Bool := false
  stripFeature : Bool := false
  renameDependency : Bool := false
  publicDependency : Bool := false
deriving DecidableEq, Repr

/-- `Features::is_enabled`. -/
def Features.is_enabled (fs : Features) : Feature → Bool
  | .profileOverrides => fs.profileOverrides
  | .namedProfiles => fs.namedProfiles
  | .stripFeature => fs.stripFeature
  | .renameDependency => fs.renameDependency
  | .publicDependency => fs.publicDependency

/-- `Features::require`: `Ok` when the capability is enabled, otherwise an
error naming the capability. -/
def Features.require (fs : Features) (c : Feature) : Except String Unit :=
  if fs.is_enabled c then .ok ()
  else .error ("feature `" ++ c.keyName ++ "` is required")

/-- The capability set with every capability enabled. -/
def Features.all : Features :=
  { profileOverrides := true, namedProfiles := true, stripFeature := true,
    renameDependency := true, publicDependency := true }

/-- The message of a true error: names the field and that the workspace root
could not be read (`mod.rs` line 1234). -/
def wsNoRootMsg (label : String) : String :=
  "error reading " ++ label ++ ": could not read workspace root"

/-- The message when the workspace table lacks the delegated field
(`mod.rs` line 1227). -/
def wsMissingFieldMsg (label : String) : String :=
  "error reading " ++ label ++ ": workspace root does not define [workspace." ++
    label ++ "]"

/-- `msg` mentions `field`: the field name occurs verbatim inside the
message. -/
def mentions (msg field : String) : Prop :=
  ∃ pre post, msg = pre ++ field ++ post

/-- `MaybeWorkspace<T>`: an explicit value or a workspace-delegation
marker. -/
inductive MaybeWorkspace (α : Type _) where
  | workspace
  | defined (value : α)
deriving DecidableEq, Repr

/-- `StringOrBool`. -/
inductive StringOrBool where
  | str (s : String)
  | bool (b : Bool)
deriving DecidableEq, Repr

/-- `U32OrBool`. -/
inductive U32OrBool where
  | u32 (n : Nat)
  | bool (b : Bool)
deriving DecidableEq, Repr

/-- `VecStringOrBool`. -/
inductive VecStringOrBool where
  | vecString (l : List String)
  | bool (b : Bool)
deriving DecidableEq, Repr

/-- `TomlDependencyDetails`: the detailed dependency shape, every field
optional, mirroring the struct at `mod.rs` lines 280-302. -/
structure TomlDependencyDetails where
  version : Option String := none
  registry : Option String := none
  registry_index : Option String := none
  path : Option String := none
  git : Option String := none
  branch : Option String := none
  tag : Option String := none
  rev : Option String := none
  features : Option (List String) := none
  optional : Option Bool := none
  default_features : Option Bool := none
  default_features2 : Option Bool := none
  package : Option String := none
  public : Option Bool := none
deriving DecidableEq, Repr

/-- `DefinedTomlDependency`: the two-shape canonical dependency variant. -/
inductive DefinedTomlDependency where
  | simple (s : String)
  | detailed (d : TomlDependencyDetails)
deriving DecidableEq, Repr

/-- `WorkspaceDetails`: the member's payload of a `{ workspace = true }`
dependency declaration. -/
structure WorkspaceDetails where
  features : Option (List String) := none
  optional : Option Bool := none
deriving DecidableEq, Repr

/-- `TomlWorkspace`: the `[workspace]` table, `mod.rs` lines 1427-1452.
External `semver::Version` payloads are kept as strings. -/
structure TomlWorkspace where
  members : Option (List String) := none
  default_members : Option (List String) := none
  exclude : Option (List String) := none
  resolver : Option String := none
  dependencies : Option (List (String × DefinedTomlDependency)) := none
  version : Option String := none
  authors : Option (List String) := none
  description : Option String := none
  documentation : Option String := none
  readme : Option StringOrBool := none
  homepage : Option String := none
  repository : Option String := none
  license : Option String := none
  license_file : Option String := none
  keywords : Option (List String) := none
  categories : Option (List String) := none
  publish : Option VecStringOrBool := none
  edition : Option String := none
  badges : Option (List (String × List (String × String))) := none

/-- `ws_default` (`mod.rs` lines 1211-1239): parses an optional
workspace-delegatable field, defaulting to the workspace's value. -/
def ws_default {α : Type _} (value : Option (MaybeWorkspace α))
    (workspace : Option TomlWorkspace) (f : TomlWorkspace → Option α)
    (label : String) : Except String (Option α) :=
  match value, workspace with
  | none, _ => .ok none
  | some (.defined v), _ => .ok (some v)
  | some .workspace, some ws =>
    match f ws with
    | some v => .ok (some v)
    | none => .error (wsMissingFieldMsg label)
  | some .workspace, none => .error (wsNoRootMsg label)

/-- A parsed URL (`url::Url`), an external collaborator.  Only the fragment
is consulted by this file; `parseUrl` splits the text at the first `#`. -/
structure Url where
  base : String
  fragment : Option String
deriving DecidableEq, Repr

/-- `IntoUrl::into_url`, modelled as splitting off the `#fragment`. -/
def parseUrl (s : String) : Url :=
  match s.splitOn "#" with
  | [] => { base := s, fragment := none }
  | [b] => { base := b, fragment := none }
  | b :: rest => { base := b, fragment := some (String.intercalate "#" rest) }

/-- `Path::join`, with paths modelled as `/`-separated strings: an absolute
right operand replaces the base. -/
def joinPath (base p : String) : String :=
  if p.startsWith "/" then p else base ++ "/" ++ p

/-- `util::normalize_path`, an external collaborator: resolves `.` and `..`
segments textually. -/
def normalizePath (p : String) : String :=
  let comps := (p.splitOn "/").foldl
    (fun acc c =>
      if c = "" || c = "." then acc
      else if c = ".." then acc.dropLast
      else acc ++ [c]) []
  "/" ++ String.intercalate "/" comps

/-- The parts of `Context` read during dependency materialization.  The
mutable `warnings` and `nested_paths` sinks of the source are returned by
`to_dependency` instead of mutated in place. -/
structure Ctx where
  pkgidPresent : Bool := true
  source_id : SourceId := .cratesIo
  platform : Option String := none
  root : String := "/pkg"
  features : Features := Features.all
deriving Repr

/-- `core::Dependency`, restricted to the fields this file sets:
`Dependency::parse` (the external semver parsing is modelled as keeping the
raw requirement string) followed by the `set_*` builder calls. -/
structure Dependency where
  name : String
  explicit_name_in_toml : Option String := none
  version_req : Option String := none
  source_id : SourceId
  registry_id : Option SourceId := none
  features : List String := []
  default_features : Bool := true
  optional : Bool := false
  platform : Option String := none
  kind : DepKind := .normal
  public : Bool := false
deriving DecidableEq, Repr

/-- `Dependency::name_in_toml`: the explicit in-document name when a
`package =` rename is present, else the package name. -/
def Dependency.name_in_toml (d : Dependency) : String :=
  d.explicit_name_in_toml.getD d.name

/-- Rust `Debug` rendering of a `DepKind`, used in the `public` error. -/
def DepKind.rustDebug : DepKind → String
  | .normal => "Normal"
  | .development => "Development"
  | .build => "Build"

/-- Warning for a dependency with none of version/path/git set. -/
def noSourceWarning (name : String) : String :=
  "dependency (" ++ name ++ ") specified without providing a local path, " ++
    "Git repository, or version to use. This will be considered an error " ++
    "in future versions"

/-- Warning for a version requirement containing semver build metadata. -/
def semverMetadataWarning (version name : String) : String :=
  "version requirement `" ++ version ++ "` for dependency `" ++ name ++
    "` includes semver metadata which will be ignored, removing the " ++
    "metadata is recommended to avoid confusion"

/-- Warning for a git-only key present without a `git` location. -/
def gitOnlyKeyWarning (keyName name : String) : String :=
  "key `" ++ keyName ++ "` is ignored for dependency (" ++ name ++
    "). This will be considered an error in future versions"

/-- Warning for `git` and `path` both present. -/
def gitPathAmbiguityWarning (name : String) : String :=
  "dependency (" ++ name ++ ") specification is ambiguous. Only one of " ++
    "`git` or `path` is allowed. This will be considered an error in " ++
    "future versions"

/-- Warning for more than one of `branch`/`tag`/`rev` present. -/
def gitRefAmbiguityWarning (name : String) : String :=
  "dependency (" ++ name ++ ") specification is ambiguous. Only one of " ++
    "`branch`, `tag` or `rev` is allowed. This will be considered an " ++
    "error in future versions"

/-- Warning for a `#fragment` in a git URL. -/
def fragmentWarning (fragment name : String) : String :=
  "URL fragment `#" ++ fragment ++ "` in git URL is ignored for " ++
    "dependency (" ++ name ++ "). If you were trying to specify a " ++
    "specific git revision, use `rev = \"" ++ fragment ++
    "\"` in the dependency declaration."

/-- Error for a `git` location combined with a registry key. -/
def gitRegistryAmbiguityError (name : String) : String :=
  "dependency (" ++ name ++ ") specification is ambiguous. Only one of " ++
    "`git` or `registry` is allowed."

/-- Error for `registry` and `registry-index` both present. -/
def registryIndexAmbiguityError (name : String) : String :=
  "dependency (" ++ name ++ ") specification is ambiguous. Only one of " ++
    "`registry` or `registry-index` is allowed."

/-- The source-identity derivation of `TomlDependencyDetails::to_dependency`
(`mod.rs` lines 2360-2447): the match on
`(git, path, registry, registry_index)`, with its arms in source order.
Returns the derived `SourceId`, the warnings pushed in this block (in push
order) and the nested paths recorded. -/
def TomlDependencyDetails.computeSourceId (d : TomlDependencyDetails)
    (name_in_toml : String) (cx : Ctx) :
    Except String (SourceId × List String × List String) :=
  match d.git, d.path, d.registry, d.registry_index with
  | some _, _, some _, _ => .error (gitRegistryAmbiguityError name_in_toml)
  | some _, _, _, some _ => .error (gitRegistryAmbiguityError name_in_toml)
  | _, _, some _, some _ => .error (registryIndexAmbiguityError name_in_toml)
  | some git, maybePath, _, _ =>
    let w1 := if maybePath.isSome then [gitPathAmbiguityWarning name_in_toml]
      else []
    let nDetails := ([d.branch, d.tag, d.rev].filter Option.isSome).length
    let w2 := if nDetails > 1 then [gitRefAmbiguityWarning name_in_toml]
      else []
    let reference :=
      (((d.branch.map GitReference.branch).orElse
          (fun _ => d.tag.map GitReference.tag)).orElse
        (fun _ => d.rev.map GitReference.rev)).getD .defaultBranch
    let loc := parseUrl git
    let w3 := match loc.fragment with
      | some fragment => [fragmentWarning fragment name_in_toml]
      | none => []
    .ok (SourceId.git git reference, w1 ++ w2 ++ w3, [])
  | none, some p, _, _ =>
    if cx.source_id.is_path then
      .ok (SourceId.path (normalizePath (joinPath cx.root p)), [], [p])
    else
      .ok (cx.source_id, [], [p])
  | none, none, some registry, none => .ok (.altRegistry registry, [], [])
  | none, none, none, some registry_index =>
    .ok (.registryUrl registry_index, [], [])
  | none, none, none, none => .ok (.cratesIo, [], [])

/-- `TomlDependencyDetails::to_dependency` (`mod.rs` lines 2313-2495):
materializes a detailed dependency declaration into a dependency record
bound to a source identity.  Returns the dependency, the warnings pushed (in
push order) and the nested paths recorded. -/
def TomlDependencyDetails.to_dependency (d : TomlDependencyDetails)
    (name_in_toml : String) (cx : Ctx) (kind : Option DepKind) :
    Except String (Dependency × List String × List String) := do
  let w1 := if d.version.isNone && d.path.isNone && d.git.isNone then
      [noSourceWarning name_in_toml]
    else []
  let w2 := match d.version with
    | some version =>
      if version.contains '+' then [semverMetadataWarning version name_in_toml]
      else []
    | none => []
  let w3 := if d.git.isNone then
      (if d.branch.isSome then [gitOnlyKeyWarning "branch" name_in_toml]
        else []) ++
      (if d.tag.isSome then [gitOnlyKeyWarning "tag" name_in_toml] else []) ++
      (if d.rev.isSome then [gitOnlyKeyWarning "rev" name_in_toml] else [])
    else []
  let (new_source_id, w4, nested) ← d.computeSourceId name_in_toml cx
  let (pkg_name, explicit_name_in_toml) :=
    match d.package with
    | some s => (s, some name_in_toml)
    | none => (name_in_toml, none)
  let dep : Dependency :=
    { name := pkg_name
      explicit_name_in_toml := explicit_name_in_toml
      version_req := d.version
      source_id := new_source_id
      registry_id :=
        match d.registry, d.registry_index with
        | _, some registry_index => some (.registryUrl registry_index)
        | some registry, none => some (.altRegistry registry)
        | none, none => none
      features := d.features.getD []
      default_features :=
        ((d.default_features.orElse (fun _ => d.default_features2)).getD true)
      optional := d.optional.getD false
      platform := cx.platform
      kind := kind.getD .normal
      public := d.public.getD false }
  if explicit_name_in_toml.isSome then
    cx.features.require .renameDependency
  else pure ()
  match d.public with
  | some _ =>
    cx.features.require .publicDependency
    if dep.kind ≠ DepKind.normal then
      Except.error ("\x27public\x27 specifier can only be used on regular " ++
        "dependencies, not " ++ dep.kind.rustDebug ++ " dependencies")
    else pure ()
  | none => pure ()
  pure (dep, w1 ++ w2 ++ w3 ++ w4, nested)

/-- `DefinedTomlDependency::to_dependency` (`mod.rs` lines 2274-2288). -/
def DefinedTomlDependency.to_dependency :
    DefinedTomlDependency → String → Ctx → Option DepKind →
      Except String (Dependency × List String × List String)
  | .simple version, name, cx, kind =>
    TomlDependencyDetails.to_dependency { version := some version } name cx kind
  | .detailed details, name, cx, kind =>
    details.to_dependency name cx kind

/-- `DefinedTomlDependency::is_version_specified`. -/
def DefinedTomlDependency.is_version_specified : DefinedTomlDependency → Bool
  | .detailed d => d.version.isSome
  | .simple _ => true

/-- `DefinedTomlDependency::is_optional`. -/
def DefinedTomlDependency.is_optional : DefinedTomlDependency → Bool
  | .detailed d => d.optional.getD false
  | .simple _ => false

/-- `DefinedTomlDependency::features`. -/
def DefinedTomlDependency.features :
    DefinedTomlDependency → Option (List String)
  | .detailed d => d.features
  | .simple _ => none

/-- The source identity of a successful materialization, if any. -/
def depSourceOf
    (r : Except String (Dependency × List String × List String)) :
    Option SourceId :=
  match r with
  | .ok (dep, _, _) => some dep.source_id
  | .error _ => none

/-- The warnings of a successful materialization. -/
def warningsOf
    (r : Except String (Dependency × List String × List String)) :
    List String :=
  match r with
  | .ok (_, w, _) => w
  | .error _ => []

/-- Whether a materialization succeeded. -/
def materializationOk
    (r : Except String (Dependency × List String × List String)) : Bool :=
  match r with
  | .ok _ => true
  | .error _ => false

/-- `Path::parent` on a `/`-separated path string: drops the last
component. -/
def parentPath (p : String) : String :=
  String.intercalate "/" (p.splitOn "/").dropLast

/-- `join_relative_path` (`mod.rs` lines 1415-1424): joins a
workspace-inherited relative path onto the workspace root's directory.  The
source `unwrap()`s the root path (a panic when it is absent); that
impossible case is modelled as an error. -/
def join_relative_path (root_path : Option String) (relative_path : String) :
    Except String String :=
  match root_path with
  | some rp => .ok (joinPath (parentPath rp) relative_path)
  | none => .error "join_relative_path: workspace root path missing"

/-- `TomlDependency`: the three-shape raw dependency variant (string /
workspace delegation / detailed table). -/
inductive TomlDependency where
  | simple (s : String)
  | workspace (ws : WorkspaceDetails)
  | detailed (d : TomlDependencyDetails)
deriving DecidableEq, Repr

/-- `DefinedTomlDependency::from_workspace_dependency` (`mod.rs` lines
2222-2273): merges a member's `{ workspace = true, ... }` overrides onto the
workspace's dependency entry.  In the detailed-entry feature merge, the
source binds `details.features` (the *member's* list) as `ws_features` and
`d.features` (the *workspace's* list) as `features`; the fold below iterates
over the workspace list with the member list as the accumulator, exactly as
the source does. -/
def DefinedTomlDependency.from_workspace_dependency
    (details : WorkspaceDetails) (ws_dep : DefinedTomlDependency)
    (root_path : Option String) : Except String DefinedTomlDependency :=
  match ws_dep with
  | .simple s =>
    .ok (.detailed
      { version := some s
        features := details.features.orElse
          (fun _ => (DefinedTomlDependency.simple s).features)
        optional := details.optional.orElse
          (fun _ => some (DefinedTomlDependency.is_optional (.simple s))) })
  | .detailed d => do
    let path ← match d.path with
      | some p => Except.map some (join_relative_path root_path p)
      | none => pure none
    .ok (.detailed
      { version := d.version
        registry := d.registry
        registry_index := d.registry_index
        path := path
        git := d.git
        branch := d.branch
        tag := d.tag
        rev := d.rev
        features :=
          match details.features, d.features with
          | none, none => none
          | some features, none => some features
          | none, some features => some features
          | some ws_features, some features =>
            some (features.foldl
              (fun result f => if f ∈ result then result else result ++ [f])
              ws_features)
        optional := details.optional.orElse (fun _ => d.optional)
        default_features := d.default_features
        default_features2 := d.default_features2
        package := d.package
        public := d.public })

/-- `DefinedTomlDependency::from_toml_dependency` (`mod.rs` lines
2200-2220): collapses the three-shape variant, resolving a workspace
delegation against the workspace's dependency map. -/
def DefinedTomlDependency.from_toml_dependency (dep : TomlDependency)
    (name : String) (ws_deps : List (String × DefinedTomlDependency))
    (root_path : Option String) : Except String DefinedTomlDependency :=
  match dep with
  | .simple s => .ok (.simple s)
  | .detailed det => .ok (.detailed det)
  | .workspace ws =>
    match ws_deps.lookup name with
    | none =>
      .error ("could not find entry in [workspace.dependencies] for \"" ++
        name ++ "\"")
    | some ws_dep =>
      DefinedTomlDependency.from_workspace_dependency ws ws_dep root_path

/-- `ProfilePackageSpec`: a `package.*` override key — a package-id spec
(kept as its string form; `PackageIdSpec` parsing is external) or `*`. -/
inductive ProfilePackageSpec where
  | spec (s : String)
  | all
deriving DecidableEq, Repr

/-- `TomlProfile` (`mod.rs` lines 678-695): a profile table entry.  The
struct is recursive through `package` and `build_override`, so it is an
inductive with one constructor; accessors follow.  The external
`core::profiles::Strip` payload is kept as a string. -/
inductive TomlProfile where
  | mk
    (opt_level : Option String)
    (lto : Option StringOrBool)
    (codegen_units : Option Nat)
    (debug : Option U32OrBool)
    (debug_assertions : Option Bool)
    (rpath : Option Bool)
    (panic : Option String)
    (overflow_checks : Option Bool)
    (incremental : Option Bool)
    (package : Option (List (ProfilePackageSpec × TomlProfile)))
    (build_override : Option TomlProfile)
    (dir_name : Option String)
    (inherits : Option String)
    (strip : Option String)

/-- Field accessor. -/
def TomlProfile.opt_level : TomlProfile → Option String
  | .mk v _ _ _ _ _ _ _ _ _ _ _ _ _ => v

/-- Field accessor. -/
def TomlProfile.lto : TomlProfile → Option StringOrBool
  | .mk _ v _ _ _ _ _ _ _ _ _ _ _ _ => v

/-- Field accessor. -/
def TomlProfile.codegen_units : TomlProfile → Option Nat
  | .mk _ _ v _ _ _ _ _ _ _ _ _ _ _ => v

/-- Field accessor. -/
def TomlProfile.debug : TomlProfile → Option U32OrBool
  | .mk _ _ _ v _ _ _ _ _ _ _ _ _ _ => v

/-- Field accessor. -/
def TomlProfile.debug_assertions : TomlProfile → Option Bool
  | .mk _ _ _ _ v _ _ _ _ _ _ _ _ _ => v

/-- Field accessor. -/
def TomlProfile.rpath : TomlProfile → Option Bool
  | .mk _ _ _ _ _ v _ _ _ _ _ _ _ _ => v

/-- Field accessor. -/
def TomlProfile.panic : TomlProfile → Option String
  | .mk _ _ _ _ _ _ v _ _ _ _ _ _ _ => v

/-- Field accessor. -/
def TomlProfile.overflow_checks : TomlProfile → Option Bool
  | .mk _ _ _ _ _ _ _ v _ _ _ _ _ _ => v

/-- Field accessor. -/
def TomlProfile.incremental : TomlProfile → Option Bool
  | .mk _ _ _ _ _ _ _ _ v _ _ _ _ _ => v

/-- Field accessor. -/
def TomlProfile.package :
    TomlProfile → Option (List (ProfilePackageSpec × TomlProfile))
  | .mk _ _ _ _ _ _ _ _ _ v _ _ _ _ => v

/-- Field accessor. -/
def TomlProfile.build_override : TomlProfile → Option TomlProfile
  | .mk _ _ _ _ _ _ _ _ _ _ v _ _ _ => v

/-- Field accessor. -/
def TomlProfile.dir_name : TomlProfile → Option String
  | .mk _ _ _ _ _ _ _ _ _ _ _ v _ _ => v

/-- Field accessor. -/
def TomlProfile.inherits : TomlProfile → Option String
  | .mk _ _ _ _ _ _ _ _ _ _ _ _ v _ => v

/-- Field accessor. -/
def TomlProfile.strip : TomlProfile → Option String
  | .mk _ _ _ _ _ _ _ _ _ _ _ _ _ v => v

/-- The profile with every field unset. -/
def TomlProfile.empty : TomlProfile :=
  .mk none none none none none none none none none none none none none none

/-- `TomlProfile::validate_name` (`mod.rs` lines 818-844): RFC 2678 name
validation.  (Rust's Unicode `is_alphanumeric` is modelled by Lean's
`Char.isAlphanum`.) -/
def TomlProfile.validate_name (name what : String) : Except String Unit :=
  match name.toList.find? (fun ch => !(ch.isAlphanum || ch == '_' || ch == '-')) with
  | some ch =>
    .error ("Invalid character `" ++ ch.toString ++ "` in " ++ what ++
      ": `" ++ name ++ "`")
  | none =>
    if name = "package" || name = "build" then
      .error ("Invalid " ++ what ++ ": `" ++ name ++ "`")
    else if name = "debug" && what = "profile" then
      if what = "profile name" then .ok ()
      else .error ("Invalid " ++ what ++ ": `" ++ name ++ "`")
    else if name = "doc" && what = "dir-name" then
      .error ("Invalid " ++ what ++ ": `" ++ name ++ "`")
    else .ok ()

/-- `TomlProfile::validate_override` (`mod.rs` lines 846-863): rules for a
profile used as a `package.*` or build-script override. -/
def TomlProfile.validate_override (p : TomlProfile) (which : String) :
    Except String Unit :=
  if p.package.isSome then
    .error "package-specific profiles cannot be nested"
  else if p.build_override.isSome then
    .error "build-override profiles cannot be nested"
  else if p.panic.isSome then
    .error ("`panic` may not be specified in a `" ++ which ++ "` profile")
  else if p.lto.isSome then
    .error ("`lto` may not be specified in a `" ++ which ++ "` profile")
  else if p.rpath.isSome then
    .error ("`rpath` may not be specified in a `" ++ which ++ "` profile")
  else .ok ()

/-- `TomlProfile::validate` (`mod.rs` lines 732-815): per-profile structural
validation.  Returns the warnings pushed (in push order) on success. -/
def TomlProfile.validate (p : TomlProfile) (name : String)
    (features : Features) : Except String (List String) := do
  let w1 := if name = "debug" then
      ["use `[profile.dev]` to configure debug builds"]
    else []
  match p.build_override with
  | some profile =>
    features.require .profileOverrides
    profile.validate_override "build-override"
  | none => pure ()
  match p.package with
  | some packages =>
    features.require .profileOverrides
    packages.forM (fun kv => kv.2.validate_override "package")
  | none => pure ()
  match name with
  | "dev" | "release" | "bench" | "test" | "doc" => pure ()
  | _ => features.require .namedProfiles
  TomlProfile.validate_name name "profile name"
  if p.inherits.isSome then features.require .namedProfiles else pure ()
  if p.dir_name.isSome then features.require .namedProfiles else pure ()
  match p.dir_name with
  | none => pure ()
  | some dir_name => TomlProfile.validate_name dir_name "dir-name"
  match p.inherits with
  | none => pure ()
  | some inh => TomlProfile.validate_name inh "inherits"
  let w2 := match name with
    | "doc" => ["profile `doc` is deprecated and has no effect"]
    | "test" | "bench" =>
      if p.panic.isSome then
        ["`panic` setting is ignored for `" ++ name ++ "` profile"]
      else []
    | _ => []
  match p.panic with
  | some pa =>
    if pa ≠ "unwind" ∧ pa ≠ "abort" then
      Except.error ("`panic` setting of `" ++ pa ++
        "` is not a valid setting,must be `unwind` or `abort`")
    else pure ()
  | none => pure ()
  if p.strip.isSome then features.require .stripFeature else pure ()
  pure (w1 ++ w2)

/-- `core::Target`, an external collaborator; only the predicate consulted
by the target gate in this file is carried. -/
structure Target where
  custom_build : Bool
deriving DecidableEq, Repr

/-- `Target::is_custom_build`. -/
def Target.is_custom_build (t : Target) : Bool := t.custom_build

/-- The "no targets specified" error of `do_read_manifest` (`mod.rs` lines
94-98). -/
def noTargetsMsg : String :=
  "no targets specified in the manifest\neither src/lib.rs, src/main.rs, " ++
    "a [lib] section, or [[bin]] section must be present"

/-- The target gate of `do_read_manifest` (`mod.rs` lines 93-99): after a
real manifest is built, reject it when every target is a custom-build
target. -/
def checkBuildableTargets (targets : List Target) : Except String Unit :=
  if targets.all Target.is_custom_build then .error noTargetsMsg else .ok ()

/-- The error for an optional `[workspace.dependencies]` entry (`mod.rs`
lines 81-84). -/
def wsOptionalMsg (name : String) : String :=
  name ++ " is optional, but workspace dependencies cannot be optional"

/-- The workspace-dependency gate of `do_read_manifest` (`mod.rs` lines
74-87): before any real or virtual manifest is constructed, fail on the
first optional entry of the workspace's dependency table. -/
def checkWsDepsNotOptional :
    List (String × DefinedTomlDependency) → Except String Unit
  | [] => .ok ()
  | (name, dep) :: rest =>
    if dep.is_optional then .error (wsOptionalMsg name)
    else checkWsDepsNotOptional rest

/-- The duplicate-source error of `into_real_manifest` (`mod.rs` lines
1750-1755). -/
def dupSourceMsg (name : String) : String :=
  "Dependency \x27" ++ name ++ "\x27 has different source paths depending " ++
    "on the build target. Each dependency must have a single canonical " ++
    "source path irrespective of build target."

/-- The `names_sources` consistency scan of `into_real_manifest` (`mod.rs`
lines 1744-1758): walk the materialized dependencies in order, recording
each in-document name's source id; fail when a name was already recorded
with a different source id.  The `BTreeMap` is modelled as a lookup
function (`insert` returns the previous binding). -/
def checkDepSources :
    List Dependency → (String → Option SourceId) → Except String Unit
  | [], _ => .ok ()
  | dep :: rest, names_sources =>
    let prev := names_sources dep.name_in_toml
    if prev.isSome = true ∧ prev ≠ some dep.source_id then
      .error (dupSourceMsg dep.name_in_toml)
    else
      checkDepSources rest
        (fun x => if x = dep.name_in_toml then some dep.source_id
          else names_sources x)

/-- The consistency check as run by `into_real_manifest`: starting from an
empty map. -/
def names_sources_check (deps : List Dependency) : Except String Unit :=
  checkDepSources deps (fun _ => none)

/-- `util::validate_package_name`, an external collaborator.  Modelled from
the spec: names must be non-empty and pass identifier validation, failing
with a message identifying the offending key. -/
def validate_package_name (name what : String) : Except String Unit :=
  if name = "" then .error ("empty " ++ what)
  else if name.toList.all
      (fun ch => ch.isAlphanum || ch == '_' || ch == '-') then .ok ()
  else .error ("invalid character in " ++ what ++ ": `" ++ name ++ "`")

/-- The accumulating state of the dependency-collection phase of
`into_real_manifest`: the `Context`'s `deps`, `warnings` and `nested_paths`
sinks. -/
structure DepAcc where
  deps : List Dependency := []
  warnings : List String := []
  nested_paths : List String := []
deriving Repr

/-- The loop body of `process_dependencies` (`mod.rs` lines 1692-1696):
materialize each entry in order, validate its in-document name, and push
it. -/
def processDepList (cx : Ctx) (kind : Option DepKind) :
    DepAcc → List (String × DefinedTomlDependency) → Except String DepAcc
  | acc, [] => .ok acc
  | acc, (n, v) :: rest =>
    match v.to_dependency n cx kind with
    | .error e => .error e
    | .ok (dep, w, p) =>
      match validate_package_name dep.name_in_toml "dependency name" with
      | .error e => .error e
      | .ok _ =>
        processDepList cx kind
          { deps := acc.deps ++ [dep], warnings := acc.warnings ++ w,
            nested_paths := acc.nested_paths ++ p } rest

/-- `process_dependencies` (`mod.rs` lines 1683-1699). -/
def process_dependencies (cx : Ctx) (acc : DepAcc)
    (new_deps : Option (List (String × DefinedTomlDependency)))
    (kind : Option DepKind) : Except String DepAcc :=
  match new_deps with
  | none => .ok acc
  | some dependencies => processDepList cx kind acc dependencies

/-- `DefinedTomlPlatform` (`mod.rs` lines 2547-2558): a platform-conditional
dependency table set. -/
structure DefinedTomlPlatform where
  dependencies : Option (List (String × DefinedTomlDependency)) := none
  build_dependencies : Option (List (String × DefinedTomlDependency)) := none
  build_dependencies2 : Option (List (String × DefinedTomlDependency)) := none
  dev_dependencies : Option (List (String × DefinedTomlDependency)) := none
  dev_dependencies2 : Option (List (String × DefinedTomlDependency)) := none

/-- The platform loop of `into_real_manifest` (`mod.rs` lines 1721-1738):
for each `[target.NAME]` table, set the context's platform (the external
`Platform` parse and its cfg-attribute lint are not modelled) and process
its dependency groups. -/
def collectPlatformDeps (cx : Ctx) :
    DepAcc → List (String × DefinedTomlPlatform) → Except String DepAcc
  | acc, [] => .ok acc
  | acc, (name, platform) :: rest =>
    let cxp := { cx with platform := some name }
    match process_dependencies cxp acc platform.dependencies none with
    | .error e => .error e
    | .ok acc =>
    match process_dependencies cxp acc
        (platform.build_dependencies.orElse
          (fun _ => platform.build_dependencies2)) (some .build) with
    | .error e => .error e
    | .ok acc =>
    match process_dependencies cxp acc
        (platform.dev_dependencies.orElse
          (fun _ => platform.dev_dependencies2)) (some .development) with
    | .error e => .error e
    | .ok acc => collectPlatformDeps cx acc rest

/-- The dependency-collection phase of `into_real_manifest` (`mod.rs` lines
1701-1738), in source order: the workspace root's `[workspace.dependencies]`
(no kind), then `[dependencies]`, `[dev-dependencies]`,
`[build-dependencies]`, then each platform-conditional table. -/
def collectManifestDeps (cx : Ctx)
    (ws_dependencies dependencies dev_dependencies build_dependencies :
      Option (List (String × DefinedTomlDependency)))
    (target : Option (List (String × DefinedTomlPlatform))) :
    Except String DepAcc :=
  match process_dependencies cx {} ws_dependencies none with
  | .error e => .error e
  | .ok acc =>
  match process_dependencies cx acc dependencies none with
  | .error e => .error e
  | .ok acc =>
  match process_dependencies cx acc dev_dependencies (some .development) with
  | .error e => .error e
  | .ok acc =>
  match process_dependencies cx acc build_dependencies (some .build) with
  | .error e => .error e
  | .ok acc => collectPlatformDeps cx acc (target.getD [])

end CargoToml

namespace CargoToml

/-- **C3** For every optionally-delegated field, resolving a
workspace-delegation marker returns an error — never a silent default — both
when no workspace table exists and when the workspace table exists but does
not define the field; in each case the error message names the field. -/
theorem ws_default_workspace_marker_errors {α : Type _}
    (f : TomlWorkspace → Option α) (label : String) :
    (ws_default (α := α) (some .workspace) none f label =
        .error (wsNoRootMsg label) ∧
      mentions (wsNoRootMsg label) label) ∧
    (∀ ws : TomlWorkspace, f ws = none →
      ws_default (some .workspace) (some ws) f label =
          .error (wsMissingFieldMsg label) ∧
        mentions (wsMissingFieldMsg label) label) := by
  refine ⟨⟨rfl, "error reading ", ": could not read workspace root", rfl⟩, ?_⟩
  intro ws h
  refine ⟨?_, "error reading ",
    ": workspace root does not define [workspace." ++ label ++ "]", ?_⟩
  · simp [ws_default, h]
  · simp [wsMissingFieldMsg, String.append_assoc]

/-- Witness for C3: both error cases evaluated at the `license` field and an
empty workspace table. -/
theorem ws_default_workspace_marker_errors_witness :
    ws_default (α := String) (some .workspace) (some {}) (fun ws => ws.license)
        "license" = .error (wsMissingFieldMsg "license") :=
  ((ws_default_workspace_marker_errors (fun ws => ws.license) "license").2
    {} rfl).1

/-- **C4** Resolving `MaybeWorkspace::Defined(x)` always yields `Ok(Some x)`,
whatever the workspace argument is; the workspace table is never
consulted. -/
theorem ws_default_defined_id {α : Type _} (x : α)
    (workspace : Option TomlWorkspace) (f : TomlWorkspace → Option α)
    (label : String) :
    ws_default (some (.defined x)) workspace f label = .ok (some x) := by
  cases workspace <;> rfl


/-- **C1 (counterexample)** For the dependency
`{ git = "https://example.com/repo", tag = "v1", branch = "main" }`,
materialization succeeds with the ambiguity warning, but the derived git
reference is the *branch* `main`, not the tag `v1` as the claim states. -/
theorem to_dependency_branch_tag_counterexample :
    depSourceOf (TomlDependencyDetails.to_dependency
        { git := some "https://example.com/repo", tag := some "v1",
          branch := some "main" } "dep" {} none) =
      some (.git "https://example.com/repo" (.branch "main")) ∧
    GitReference.branch "main" ≠ GitReference.tag "v1" := by
  exact ⟨rfl, by decide⟩

/-- **C1 (amended)** For every dependency declaration with a git location
and both `tag` and `branch` set (and no conflicting registry keys, rename or
visibility flag), materialization via `to_dependency` succeeds, pushes the
`branch`/`tag`/`rev` ambiguity warning, and the derived git reference kind
is the *branch* — the first non-`None` key in `branch`, `tag`, `rev`
order — not the tag. -/
theorem to_dependency_branch_tag_both_set
    (d : TomlDependencyDetails) (url b t name : String) (cx : Ctx)
    (kind : Option DepKind)
    (hg : d.git = some url) (hb : d.branch = some b) (ht : d.tag = some t)
    (hr : d.registry = none) (hri : d.registry_index = none)
    (hp : d.package = none) (hpub : d.public = none) :
    materializationOk (d.to_dependency name cx kind) = true ∧
    gitRefAmbiguityWarning name ∈ warningsOf (d.to_dependency name cx kind) ∧
    depSourceOf (d.to_dependency name cx kind) =
      some (.git url (.branch b)) := by
  obtain ⟨ver, reg, regI, path, git, br, tg, rv, fts, opt, df, df2, pkg, pub⟩ := d
  simp only at hg hb ht hr hri hp hpub
  subst hg hb ht hr hri hp hpub
  rcases hfr : (parseUrl url).fragment with _ | f <;>
    cases ver <;> cases path <;> cases rv <;>
      refine ⟨rfl, ?_, rfl⟩ <;>
        simp [TomlDependencyDetails.to_dependency,
          TomlDependencyDetails.computeSourceId, warningsOf, hfr,
          List.mem_append]

/-- Witness for C1 (amended): evaluated at the Scenario C input. -/
theorem to_dependency_branch_tag_both_set_witness :
    materializationOk (TomlDependencyDetails.to_dependency
        { git := some "https://example.com/repo", tag := some "v1",
          branch := some "main" } "dep" {} none) = true ∧
    gitRefAmbiguityWarning "dep" ∈
      warningsOf (TomlDependencyDetails.to_dependency
        { git := some "https://example.com/repo", tag := some "v1",
          branch := some "main" } "dep" {} none) ∧
    depSourceOf (TomlDependencyDetails.to_dependency
        { git := some "https://example.com/repo", tag := some "v1",
          branch := some "main" } "dep" {} none) =
      some (.git "https://example.com/repo" (.branch "main")) :=
  to_dependency_branch_tag_both_set
    { git := some "https://example.com/repo", tag := some "v1",
      branch := some "main" }
    "https://example.com/repo" "main" "v1" "dep" {} none
    rfl rfl rfl rfl rfl rfl rfl

/-- **C5** A dependency declaration combining a git location with a registry
name or registry URL, or combining a registry name with a registry URL,
fails materialization with an ambiguity error. -/
theorem to_dependency_registry_ambiguity_fails
    (d : TomlDependencyDetails) (name : String) (cx : Ctx)
    (kind : Option DepKind)
    (h : (d.git.isSome = true ∧
            (d.registry.isSome = true ∨ d.registry_index.isSome = true)) ∨
         (d.registry.isSome = true ∧ d.registry_index.isSome = true)) :
    ∃ msg, d.to_dependency name cx kind = .error msg ∧
      (msg = gitRegistryAmbiguityError name ∨
        msg = registryIndexAmbiguityError name) := by
  obtain ⟨ver, reg, regI, path, git, br, tg, rv, fts, opt, df, df2, pkg, pub⟩ := d
  simp only [Option.isSome] at h
  cases git <;> cases reg <;> cases regI <;> cases path <;> simp_all <;>
    first
      | exact ⟨_, rfl, Or.inr rfl⟩
      | exact ⟨_, rfl, Or.inl rfl⟩

/-- Witness for C5: `{ git = "https://example.com/repo", registry = "r" }`
fails with the git/registry ambiguity error. -/
theorem to_dependency_registry_ambiguity_fails_witness :
    ∃ msg, TomlDependencyDetails.to_dependency
        { git := some "https://example.com/repo", registry := some "r" }
        "dep" {} none = .error msg ∧
      (msg = gitRegistryAmbiguityError "dep" ∨
        msg = registryIndexAmbiguityError "dep") :=
  to_dependency_registry_ambiguity_fails
    { git := some "https://example.com/repo", registry := some "r" }
    "dep" {} none (Or.inl (by simp))


/-- Helper for C2: the source's contains-guarded push-fold over the
workspace feature list equals appending the workspace features not already
present, when the workspace list has no duplicates. -/
theorem foldl_dedup_eq_append_filter (ws_fs : List String) :
    ∀ member_fs : List String, ws_fs.Nodup →
      ws_fs.foldl
          (fun result f => if f ∈ result then result else result ++ [f])
          member_fs =
        member_fs ++ ws_fs.filter (fun f => decide (f ∉ member_fs)) := by
  induction ws_fs with
  | nil => simp
  | cons b bs ih =>
    intro a hnd
    rw [List.nodup_cons] at hnd
    obtain ⟨hb, hnd⟩ := hnd
    simp only [List.foldl_cons]
    by_cases hmem : b ∈ a
    · rw [if_pos hmem, ih a hnd, List.filter_cons]
      simp [hmem]
    · rw [if_neg hmem, ih (a ++ [b]) hnd]
      have hfil : bs.filter (fun f => decide (f ∉ a ++ [b])) =
          bs.filter (fun f => decide (f ∉ a)) := by
        apply List.filter_congr
        intro x hx
        have hxb : x ≠ b := fun h => hb (h ▸ hx)
        simp [List.mem_append, hxb]
      rw [hfil, List.filter_cons]
      simp [hmem, List.append_assoc]

/-- **C2 (counterexample)** With member features `["m"]` and workspace
features `["a", "b"]`, the merged list is `["m", "a", "b"]` — the member's
list first — not the claimed workspace-first `["a", "b", "m"]`. -/
theorem from_workspace_dependency_feature_order_counterexample :
    DefinedTomlDependency.from_workspace_dependency
        { features := some ["m"] }
        (.detailed { version := some "1.0", features := some ["a", "b"] })
        none =
      .ok (.detailed
        { version := some "1.0", features := some ["m", "a", "b"] }) ∧
    (["m", "a", "b"] : List String) ≠ ["a", "b", "m"] := by
  exact ⟨rfl, by decide⟩

/-- **C2 (amended)** Resolving a workspace delegation against a Simple
workspace entry `foo = s` yields a Detailed dependency with version `s` and
the member's `optional` value when the member specifies one; and when both
the workspace entry and the member specify feature lists, the result is the
*member's* list followed by those workspace features not already present
(not the workspace list first). -/
theorem from_workspace_dependency_merges
    (details : WorkspaceDetails) (root_path : Option String) :
    (∀ s b, details.optional = some b →
      DefinedTomlDependency.from_workspace_dependency details (.simple s)
          root_path =
        .ok (.detailed
          { version := some s, features := details.features,
            optional := some b })) ∧
    (∀ (d : TomlDependencyDetails) (member_fs ws_fs : List String),
      details.features = some member_fs → d.features = some ws_fs →
      d.path = none → ws_fs.Nodup →
      ∃ r, DefinedTomlDependency.from_workspace_dependency details
            (.detailed d) root_path = .ok (.detailed r) ∧
        r.features =
          some (member_fs ++
            ws_fs.filter (fun f => decide (f ∉ member_fs))) ∧
        r.version = d.version) := by
  obtain ⟨dfts, dopt⟩ := details
  constructor
  · intro s b hopt
    simp only at hopt
    subst hopt
    cases dfts <;> rfl
  · intro d member_fs ws_fs hfts hdfts hpath hnd
    obtain ⟨ver, reg, regI, path, git, br, tg, rv, fts, opt, df, df2, pkg,
      pub⟩ := d
    simp only at hfts hdfts hpath
    subst hfts hdfts hpath
    refine ⟨_, rfl, ?_, rfl⟩
    simp only
    rw [foldl_dedup_eq_append_filter ws_fs member_fs hnd]

/-- Witness for C2 (amended): both conjuncts at the Scenario B input
(`foo = "2.0"` in the workspace, `{ workspace = true, optional = true }` in
the member) and a concrete feature merge. -/
theorem from_workspace_dependency_merges_witness :
    DefinedTomlDependency.from_workspace_dependency { optional := some true }
        (.simple "2.0") none =
      .ok (.detailed
        { version := some "2.0", features := none,
          optional := some true }) ∧
    ∃ r, DefinedTomlDependency.from_workspace_dependency
          { features := some ["m"] }
          (.detailed { version := some "1.0", features := some ["w"] })
          none = .ok (.detailed r) ∧
      r.features =
        some (["m"] ++
          ["w"].filter (fun f => decide (f ∉ (["m"] : List String)))) ∧
      r.version = some "1.0" :=
  ⟨(from_workspace_dependency_merges { optional := some true } none).1
      "2.0" true rfl,
    (from_workspace_dependency_merges { features := some ["m"] } none).2
      { version := some "1.0", features := some ["w"] } ["m"] ["w"]
      rfl rfl rfl (by decide)⟩


/-- **C7** A profile used as an override (`package.*` entry or
build-override) must not itself contain nested overrides nor set `panic`,
`lto` or `rpath`: `validate_override` fails on any of them.  In particular
`[profile.release.package.foo]` with `panic = "abort"` is a fatal
validation error naming `panic` and the `package` override. -/
theorem profile_override_restrictions :
    (∀ (p : TomlProfile) (which : String),
      (p.package.isSome = true ∨ p.build_override.isSome = true ∨
        p.panic.isSome = true ∨ p.lto.isSome = true ∨
        p.rpath.isSome = true) →
      ∃ msg, p.validate_override which = .error msg) ∧
    (TomlProfile.validate
        (.mk none none none none none none none none none
          (some [(.spec "foo",
            .mk none none none none none none (some "abort") none none none
              none none none none)])
          none none none none)
        "release" Features.all =
      .error "`panic` may not be specified in a `package` profile" ∧
    mentions "`panic` may not be specified in a `package` profile"
      "panic" ∧
    mentions "`panic` may not be specified in a `package` profile"
      "package") := by
  constructor
  · intro p which h
    obtain ⟨ol, lt, cu, dbg, da, rp, pa, oc, inc, pkg, bo, dn, inh, st⟩ := p
    cases pkg <;> cases bo <;> cases pa <;> cases lt <;> cases rp <;>
      simp_all [TomlProfile.validate_override, TomlProfile.package,
        TomlProfile.build_override, TomlProfile.panic, TomlProfile.lto,
        TomlProfile.rpath]
  · exact ⟨rfl,
      ⟨"`", "` may not be specified in a `package` profile", rfl⟩,
      ⟨"`panic` may not be specified in a `", "` profile", rfl⟩⟩

/-- Witness for C7: a `panic = "abort"` profile fails `validate_override`
as a `package` override. -/
theorem profile_override_restrictions_witness :
    ∃ msg, TomlProfile.validate_override
        (.mk none none none none none none (some "abort") none none none
          none none none none) "package" = .error msg :=
  profile_override_restrictions.1
    (.mk none none none none none none (some "abort") none none none none
      none none none) "package" (Or.inr (Or.inr (Or.inl rfl)))

/-- **C8** A manifest whose resolved targets are all custom-build targets
(including the empty list) is rejected by the "no targets specified" gate
of `do_read_manifest`; a manifest with at least one non-build-script target
is not rejected by this gate. -/
theorem no_buildable_targets_rejected (targets : List Target) :
    (targets.all Target.is_custom_build = true →
      checkBuildableTargets targets = .error noTargetsMsg) ∧
    ((∃ t ∈ targets, t.is_custom_build = false) →
      checkBuildableTargets targets = .ok ()) := by
  constructor
  · intro h
    simp [checkBuildableTargets, h]
  · rintro ⟨t, ht, hf⟩
    have hall : targets.all Target.is_custom_build = false := by
      rcases hc : targets.all Target.is_custom_build with _ | _
      · rfl
      · rw [List.all_eq_true] at hc
        have := hc t ht
        rw [hf] at this
        exact absurd this (by decide)
    simp [checkBuildableTargets, hall]

/-- Witness for C8: the empty target list and a list with only a
custom-build target are rejected; a single ordinary target passes. -/
theorem no_buildable_targets_rejected_witness :
    checkBuildableTargets [] = .error noTargetsMsg ∧
    checkBuildableTargets [{ custom_build := true }] = .error noTargetsMsg ∧
    checkBuildableTargets [{ custom_build := false }] = .ok () :=
  ⟨(no_buildable_targets_rejected []).1 rfl,
    (no_buildable_targets_rejected [{ custom_build := true }]).1 rfl,
    (no_buildable_targets_rejected [{ custom_build := false }]).2
      ⟨{ custom_build := false }, List.mem_singleton_self _, rfl⟩⟩

/-- **C10** When the `[workspace.dependencies]` table contains an optional
entry, the gate of `do_read_manifest` fails with an error naming that
dependency. -/
theorem ws_optional_dependency_rejected
    (deps : List (String × DefinedTomlDependency))
    (h : ∃ p ∈ deps, (p.2).is_optional = true) :
    ∃ name dep, (name, dep) ∈ deps ∧ dep.is_optional = true ∧
      checkWsDepsNotOptional deps = .error (wsOptionalMsg name) ∧
      mentions (wsOptionalMsg name) name := by
  induction deps with
  | nil =>
    obtain ⟨p, hp, _⟩ := h
    exact absurd hp (List.not_mem_nil p)
  | cons head rest ih =>
    obtain ⟨p, hp, hopt⟩ := h
    obtain ⟨n, d⟩ := head
    by_cases hd : d.is_optional = true
    · refine ⟨n, d, List.mem_cons_self _ _, hd, ?_, "",
        " is optional, but workspace dependencies cannot be optional", rfl⟩
      simp [checkWsDepsNotOptional, hd]
    · have hp' : p ∈ rest := by
        rcases List.mem_cons.mp hp with heq | hmem
        · rw [heq] at hopt
          exact absurd hopt hd
        · exact hmem
      obtain ⟨name, dep, hmem, hdep, hcheck, hment⟩ := ih ⟨p, hp', hopt⟩
      rw [Bool.not_eq_true] at hd
      exact ⟨name, dep, List.mem_cons_of_mem _ hmem, hdep,
        by simp [checkWsDepsNotOptional, hd, hcheck], hment⟩

/-- Witness for C10: a table whose second entry is optional fails naming
that entry. -/
theorem ws_optional_dependency_rejected_witness :
    ∃ name dep,
      (name, dep) ∈ [("a", DefinedTomlDependency.simple "1"),
        ("b", DefinedTomlDependency.detailed { optional := some true })] ∧
      dep.is_optional = true ∧
      checkWsDepsNotOptional
          [("a", DefinedTomlDependency.simple "1"),
            ("b", DefinedTomlDependency.detailed { optional := some true })] =
        .error (wsOptionalMsg name) ∧
      mentions (wsOptionalMsg name) name :=
  ws_optional_dependency_rejected
    [("a", .simple "1"), ("b", .detailed { optional := some true })]
    ⟨("b", .detailed { optional := some true }), by simp, rfl⟩


/-- Bind of a successful `Except` computation. -/
theorem except_bind_ok {ε α β : Type _} (a : α) (f : α → Except ε β) :
    (Except.ok a >>= f) = f a := rfl

/-- Bind of a failed `Except` computation. -/
theorem except_bind_error {ε α β : Type _} (e : ε) (f : α → Except ε β) :
    ((Except.error e : Except ε α) >>= f) = Except.error e := rfl

/-- Bind of a pure `Except` computation. -/
theorem except_bind_pure {ε α β : Type _} (a : α) (f : α → Except ε β) :
    ((pure a : Except ε α) >>= f) = f a := rfl

/-- Helper for C6: a successful `names_sources` scan means the processed
dependencies agree with the map and with one another on source ids. -/
theorem checkDepSources_ok_sound :
    ∀ (deps : List Dependency) (seen : String → Option SourceId),
      checkDepSources deps seen = .ok () →
      (∀ d ∈ deps, ∀ s, seen d.name_in_toml = some s → d.source_id = s) ∧
      (∀ d1 ∈ deps, ∀ d2 ∈ deps, d1.name_in_toml = d2.name_in_toml →
        d1.source_id = d2.source_id) := by
  intro deps
  induction deps with
  | nil =>
    intro seen _
    exact ⟨fun d hd => absurd hd (List.not_mem_nil d),
      fun d1 h1 => absurd h1 (List.not_mem_nil d1)⟩
  | cons dep rest ih =>
    intro seen h
    unfold checkDepSources at h
    by_cases hc : (seen dep.name_in_toml).isSome = true ∧
        seen dep.name_in_toml ≠ some dep.source_id
    · rw [if_pos hc] at h
      exact absurd h (by simp)
    · rw [if_neg hc] at h
      have hprev : seen dep.name_in_toml = none ∨
          seen dep.name_in_toml = some dep.source_id := by
        by_cases hsome : (seen dep.name_in_toml).isSome = true
        · right
          by_contra hne
          exact hc ⟨hsome, hne⟩
        · exact Or.inl (Option.not_isSome_iff_eq_none.mp hsome)
      obtain ⟨ihA, ihB⟩ := ih _ h
      have hrest : ∀ d ∈ rest, d.name_in_toml = dep.name_in_toml →
          d.source_id = dep.source_id := by
        intro d hd hn
        have : (fun x => if x = dep.name_in_toml then some dep.source_id
            else seen x) d.name_in_toml = some dep.source_id := by
          simp [hn]
        exact ihA d hd _ this
      constructor
      · intro d hd s hs
        rcases List.mem_cons.mp hd with rfl | hdr
        · rcases hprev with hp | hp
          · rw [hp] at hs; exact absurd hs (by simp)
          · rw [hp] at hs
            exact Option.some_injective _ hs
        · by_cases hn : d.name_in_toml = dep.name_in_toml
          · rcases hprev with hp | hp
            · rw [hn, hp] at hs; exact absurd hs (by simp)
            · rw [hn, hp] at hs
              rw [hrest d hdr hn]
              exact Option.some_injective _ hs
          · have : (fun x => if x = dep.name_in_toml then some dep.source_id
                else seen x) d.name_in_toml = some s := by
              simp [hn, hs]
            exact ihA d hdr s this
      · intro d1 h1 d2 h2 hn
        rcases List.mem_cons.mp h1 with rfl | h1r <;>
          rcases List.mem_cons.mp h2 with rfl | h2r
        · rfl
        · exact (hrest d2 h2r hn.symm).symm
        · exact hrest d1 h1r hn
        · exact ihB d1 h1r d2 h2r hn

/-- Helper for C6: a failed `names_sources` scan produces the
duplicate-source message for a name genuinely carrying two different source
ids among the processed dependencies (tracked through the already-seen
list `prevDeps`). -/
theorem checkDepSources_error_conflict :
    ∀ (deps prevDeps : List Dependency) (seen : String → Option SourceId),
      (∀ nm s, seen nm = some s →
        ∃ d0, d0 ∈ prevDeps ∧ d0.name_in_toml = nm ∧ d0.source_id = s) →
      ∀ msg, checkDepSources deps seen = .error msg →
      ∃ name d1 d2, msg = dupSourceMsg name ∧
        d1 ∈ prevDeps ++ deps ∧ d2 ∈ prevDeps ++ deps ∧
        d1.name_in_toml = name ∧ d2.name_in_toml = name ∧
        d1.source_id ≠ d2.source_id := by
  intro deps
  induction deps with
  | nil =>
    intro prevDeps seen hinv msg h
    exact absurd h (by simp [checkDepSources])
  | cons dep rest ih =>
    intro prevDeps seen hinv msg h
    unfold checkDepSources at h
    by_cases hc : (seen dep.name_in_toml).isSome = true ∧
        seen dep.name_in_toml ≠ some dep.source_id
    · rw [if_pos hc] at h
      obtain ⟨hsome, hne⟩ := hc
      obtain ⟨s, hs⟩ := Option.isSome_iff_exists.mp hsome
      obtain ⟨d0, hd0mem, hd0name, hd0src⟩ := hinv _ _ hs
      have hmsg : msg = dupSourceMsg dep.name_in_toml := by
        injection h with h
        exact h.symm
      have hsne : s ≠ dep.source_id := fun hEq => hne (by rw [hs, hEq])
      refine ⟨dep.name_in_toml, d0, dep, hmsg,
        List.mem_append_left _ hd0mem,
        List.mem_append_right _ (List.mem_cons_self _ _),
        hd0name, rfl, ?_⟩
      rw [hd0src]
      exact hsne
    · rw [if_neg hc] at h
      have hinv' : ∀ nm s,
          (fun x => if x = dep.name_in_toml then some dep.source_id
            else seen x) nm = some s →
          ∃ d0, d0 ∈ prevDeps ++ [dep] ∧ d0.name_in_toml = nm ∧
            d0.source_id = s := by
        intro nm s hns
        have hns' : (if nm = dep.name_in_toml then some dep.source_id
            else seen nm) = some s := hns
        by_cases hn : nm = dep.name_in_toml
        · rw [if_pos hn] at hns'
          injection hns' with hns'
          exact ⟨dep, List.mem_append_right _ (List.mem_singleton_self _),
            hn.symm, hns'⟩
        · rw [if_neg hn] at hns'
          obtain ⟨d0, hm, hn0, hs0⟩ := hinv nm s hns'
          exact ⟨d0, List.mem_append_left _ hm, hn0, hs0⟩
      obtain ⟨name, d1, d2, hmsg, hm1, hm2, hn1, hn2, hss⟩ :=
        ih (prevDeps ++ [dep]) _ hinv' msg h
      rw [List.append_assoc, List.singleton_append] at hm1 hm2
      exact ⟨name, d1, d2, hmsg, hm1, hm2, hn1, hn2, hss⟩

/-- **C6** When materialization yields two dependencies with the same
in-document name but different source ids, the `names_sources` check of
`into_real_manifest` fails with the duplicate-source error naming a
dependency name that genuinely carries two different source ids. -/
theorem into_real_manifest_dup_source_error
    (deps : List Dependency)
    (h : ∃ d1 ∈ deps, ∃ d2 ∈ deps,
      d1.name_in_toml = d2.name_in_toml ∧ d1.source_id ≠ d2.source_id) :
    ∃ name, names_sources_check deps = .error (dupSourceMsg name) ∧
      mentions (dupSourceMsg name) name ∧
      ∃ e1 ∈ deps, ∃ e2 ∈ deps, e1.name_in_toml = name ∧
        e2.name_in_toml = name ∧ e1.source_id ≠ e2.source_id := by
  obtain ⟨d1, h1, d2, h2, hname, hsrc⟩ := h
  rcases hres : names_sources_check deps with msg | u
  · obtain ⟨name, e1, e2, hmsg, hm1, hm2, hn1, hn2, hss⟩ :=
      checkDepSources_error_conflict deps [] (fun _ => none)
        (fun nm s hns => absurd hns (by simp)) msg hres
    rw [List.nil_append] at hm1 hm2
    subst hmsg
    refine ⟨name, rfl, ?_, e1, hm1, e2, hm2, hn1, hn2, hss⟩
    refine ⟨"Dependency \x27",
      "\x27 has different source paths depending on the build target. " ++
        "Each dependency must have a single canonical source path " ++
        "irrespective of build target.", ?_⟩
    simp [dupSourceMsg, String.append_assoc]
  · obtain ⟨-, hcons⟩ :=
      checkDepSources_ok_sound deps (fun _ => none) (by cases u; exact hres)
    exact absurd (hcons d1 h1 d2 h2 hname) hsrc

/-- Witness for C6: the name `foo` declared with the default registry in
one group and a path source in another is rejected. -/
theorem into_real_manifest_dup_source_error_witness :
    ∃ name, names_sources_check
        [{ name := "foo", source_id := SourceId.cratesIo },
          { name := "foo", source_id := SourceId.path "/x" }] =
        .error (dupSourceMsg name) ∧
      mentions (dupSourceMsg name) name ∧
      ∃ e1 ∈ [({ name := "foo", source_id := SourceId.cratesIo } : Dependency),
          { name := "foo", source_id := SourceId.path "/x" }],
        ∃ e2 ∈ [({ name := "foo", source_id := SourceId.cratesIo } : Dependency),
          { name := "foo", source_id := SourceId.path "/x" }],
        e1.name_in_toml = name ∧ e2.name_in_toml = name ∧
        e1.source_id ≠ e2.source_id :=
  into_real_manifest_dup_source_error
    [{ name := "foo", source_id := SourceId.cratesIo },
      { name := "foo", source_id := SourceId.path "/x" }]
    ⟨{ name := "foo", source_id := SourceId.cratesIo }, by simp,
      { name := "foo", source_id := SourceId.path "/x" }, by simp,
      rfl, by decide⟩

/-- `pure` on `Except` is `Except.ok`. -/
theorem except_pure_eq_ok {ε α : Type _} (a : α) :
    (pure a : Except ε α) = Except.ok a := rfl

/-- Helper for C9: every successful materialization of a detailed
declaration yields a dependency whose in-document name is the declaration
key and whose kind is the requested kind (`Normal` when none is given). -/
theorem toDependency_ok_shape
    (d : TomlDependencyDetails) (n : String) (cx : Ctx)
    (kind : Option DepKind) (res : Dependency × List String × List String)
    (h : d.to_dependency n cx kind = .ok res) :
    res.1.name_in_toml = n ∧ res.1.kind = kind.getD .normal := by
  obtain ⟨dep, w, p⟩ := res
  unfold TomlDependencyDetails.to_dependency at h
  rcases hsrc : TomlDependencyDetails.computeSourceId d n cx with e | ⟨src, w4, nested⟩
  · simp only [hsrc, except_bind_error] at h
    exact absurd h (by simp)
  · simp only [hsrc, except_bind_ok] at h
    rcases hpkg : d.package with _ | s <;>
      rcases hpub : d.public with _ | pb <;>
      simp only [hpkg, hpub, Option.isSome_some, Option.isSome_none,
        Bool.false_eq_true, if_true, if_false, except_bind_ok,
        except_bind_pure] at h
    · -- package none, public none
      simp only [except_pure_eq_ok, Except.ok.injEq, Prod.mk.injEq] at h
      obtain ⟨h1, -, -⟩ := h
      subst h1
      exact ⟨rfl, rfl⟩
    · -- package none, public some
      rcases hreqp : cx.features.require Feature.publicDependency with e2 | ⟨⟩ <;>
        simp only [hreqp, except_bind_error, except_bind_ok] at h
      · exact absurd h (by simp)
      · rcases kind with _ | k
        · rw [if_neg (by simp)] at h
          simp only [except_bind_pure, except_pure_eq_ok, Except.ok.injEq,
            Prod.mk.injEq] at h
          obtain ⟨h1, -, -⟩ := h
          subst h1
          exact ⟨rfl, rfl⟩
        · cases k
          · rw [if_neg (by simp)] at h
            simp only [except_bind_pure, except_pure_eq_ok, Except.ok.injEq,
              Prod.mk.injEq] at h
            obtain ⟨h1, -, -⟩ := h
            subst h1
            exact ⟨rfl, rfl⟩
          · rw [if_pos (by simp)] at h
            exact absurd h (by simp)
          · rw [if_pos (by simp)] at h
            exact absurd h (by simp)
    · -- package some, public none
      rcases hreq : cx.features.require Feature.renameDependency with e1 | ⟨⟩ <;>
        simp only [hreq, except_bind_error, except_bind_ok] at h
      · exact absurd h (by simp)
      · simp only [except_bind_pure, except_pure_eq_ok, Except.ok.injEq,
          Prod.mk.injEq] at h
        obtain ⟨h1, -, -⟩ := h
        subst h1
        exact ⟨rfl, rfl⟩
    · -- package some, public some
      rcases hreq : cx.features.require Feature.renameDependency with e1 | ⟨⟩ <;>
        simp only [hreq, except_bind_error, except_bind_ok] at h
      · exact absurd h (by simp)
      · rcases hreqp : cx.features.require Feature.publicDependency with e2 | ⟨⟩ <;>
          simp only [hreqp, except_bind_error, except_bind_ok] at h
        · exact absurd h (by simp)
        · rcases kind with _ | k
          · rw [if_neg (by simp)] at h
            simp only [except_bind_pure, except_pure_eq_ok, Except.ok.injEq,
              Prod.mk.injEq] at h
            obtain ⟨h1, -, -⟩ := h
            subst h1
            exact ⟨rfl, rfl⟩
          · cases k
            · rw [if_neg (by simp)] at h
              simp only [except_bind_pure, except_pure_eq_ok, Except.ok.injEq,
                Prod.mk.injEq] at h
              obtain ⟨h1, -, -⟩ := h
              subst h1
              exact ⟨rfl, rfl⟩
            · rw [if_pos (by simp)] at h
              exact absurd h (by simp)
            · rw [if_pos (by simp)] at h
              exact absurd h (by simp)

/-- Helper for C9: the success shape lifted to both dependency shapes. -/
theorem definedToDependency_ok_shape
    (v : DefinedTomlDependency) (n : String) (cx : Ctx)
    (kind : Option DepKind) (res : Dependency × List String × List String)
    (h : v.to_dependency n cx kind = .ok res) :
    res.1.name_in_toml = n ∧ res.1.kind = kind.getD .normal := by
  cases v with
  | simple s => exact toDependency_ok_shape _ n cx kind res h
  | detailed det => exact toDependency_ok_shape det n cx kind res h

/-- Helper for C9: `process_dependencies` only appends to the collected
dependency list. -/
theorem processDepList_mono :
    ∀ (l : List (String × DefinedTomlDependency)) (cx : Ctx)
      (kind : Option DepKind) (acc out : DepAcc),
      processDepList cx kind acc l = .ok out →
      ∀ x ∈ acc.deps, x ∈ out.deps := by
  intro l
  induction l with
  | nil =>
    intro cx kind acc out h x hx
    simp only [processDepList] at h
    injection h with h
    subst h
    exact hx
  | cons hd rest ih =>
    intro cx kind acc out h x hx
    obtain ⟨n, v⟩ := hd
    simp only [processDepList] at h
    rcases hdep : v.to_dependency n cx kind with e | ⟨dep, w, p⟩
    · simp only [hdep] at h
      exact absurd h (by simp)
    · simp only [hdep] at h
      rcases hval : validate_package_name dep.name_in_toml "dependency name"
          with e | ⟨⟩
      · simp only [hval] at h
        exact absurd h (by simp)
      · simp only [hval] at h
        exact ih cx kind _ out h x (List.mem_append_left _ hx)

/-- Helper for C9: a successful `process_dependencies` run materializes
every entry of its table into the collected list, with the entry's key as
the in-document name and the requested kind. -/
theorem processDepList_covers :
    ∀ (l : List (String × DefinedTomlDependency)) (cx : Ctx)
      (kind : Option DepKind) (acc out : DepAcc),
      processDepList cx kind acc l = .ok out →
      ∀ q ∈ l, ∃ dep ∈ out.deps, dep.name_in_toml = q.1 ∧
        dep.kind = kind.getD .normal := by
  intro l
  induction l with
  | nil =>
    intro cx kind acc out _ q hq
    exact absurd hq (List.not_mem_nil q)
  | cons hd rest ih =>
    intro cx kind acc out h q hq
    obtain ⟨n, v⟩ := hd
    simp only [processDepList] at h
    rcases hdep : v.to_dependency n cx kind with e | ⟨dep, w, p⟩
    · simp only [hdep] at h
      exact absurd h (by simp)
    · simp only [hdep] at h
      rcases hval : validate_package_name dep.name_in_toml "dependency name"
          with e | ⟨⟩
      · simp only [hval] at h
        exact absurd h (by simp)
      · simp only [hval] at h
        obtain ⟨hname, hkind⟩ :=
          definedToDependency_ok_shape v n cx kind (dep, w, p) hdep
        rcases List.mem_cons.mp hq with rfl | hqr
        · refine ⟨dep, ?_, hname, hkind⟩
          exact processDepList_mono rest cx kind _ out h dep
            (List.mem_append_right _ (List.mem_singleton_self _))
        · exact ih cx kind _ out h q hqr

/-- Helper for C9: monotonicity through the optional-table wrapper. -/
theorem process_dependencies_mono
    (cx : Ctx) (acc : DepAcc)
    (new_deps : Option (List (String × DefinedTomlDependency)))
    (kind : Option DepKind) (out : DepAcc)
    (h : process_dependencies cx acc new_deps kind = .ok out) :
    ∀ x ∈ acc.deps, x ∈ out.deps := by
  cases new_deps with
  | none =>
    simp only [process_dependencies] at h
    injection h with h
    subst h
    exact fun x hx => hx
  | some l =>
    exact processDepList_mono l cx kind acc out h

/-- Helper for C9: monotonicity through the platform-conditional loop. -/
theorem collectPlatformDeps_mono :
    ∀ (pls : List (String × DefinedTomlPlatform)) (cx : Ctx)
      (acc out : DepAcc),
      collectPlatformDeps cx acc pls = .ok out →
      ∀ x ∈ acc.deps, x ∈ out.deps := by
  intro pls
  induction pls with
  | nil =>
    intro cx acc out h x hx
    simp only [collectPlatformDeps] at h
    injection h with h
    subst h
    exact hx
  | cons hd rest ih =>
    intro cx acc out h x hx
    obtain ⟨name, platform⟩ := hd
    simp only [collectPlatformDeps] at h
    rcases h1 : process_dependencies { cx with platform := some name } acc
        platform.dependencies none with e | acc1
    · simp only [h1] at h
      exact absurd h (by simp)
    · simp only [h1] at h
      rcases h2 : process_dependencies { cx with platform := some name } acc1
          (platform.build_dependencies.orElse
            (fun _ => platform.build_dependencies2)) (some .build)
          with e | acc2
      · simp only [h2] at h
        exact absurd h (by simp)
      · simp only [h2] at h
        rcases h3 : process_dependencies { cx with platform := some name }
            acc2 (platform.dev_dependencies.orElse
              (fun _ => platform.dev_dependencies2)) (some .development)
            with e | acc3
        · simp only [h3] at h
          exact absurd h (by simp)
        · simp only [h3] at h
          exact ih cx acc3 out h x
            (process_dependencies_mono _ _ _ _ _ h3 x
              (process_dependencies_mono _ _ _ _ _ h2 x
                (process_dependencies_mono _ _ _ _ _ h1 x hx)))

/-- **C9** When the workspace root defines `[workspace.dependencies]`,
every entry of that table is materialized into the package's dependency
list as a normal-kind dependency by the collection phase of
`into_real_manifest`, even when the package's own tables never reference
it. -/
theorem into_real_manifest_materializes_ws_deps
    (cx : Ctx) (ws_deps : List (String × DefinedTomlDependency))
    (dependencies dev_deps build_deps :
      Option (List (String × DefinedTomlDependency)))
    (target : Option (List (String × DefinedTomlPlatform)))
    (out : DepAcc)
    (h : collectManifestDeps cx (some ws_deps) dependencies dev_deps
      build_deps target = .ok out)
    (q : String × DefinedTomlDependency) (hq : q ∈ ws_deps) :
    ∃ dep ∈ out.deps, dep.name_in_toml = q.1 ∧ dep.kind = DepKind.normal := by
  unfold collectManifestDeps at h
  rcases h1 : process_dependencies cx {} (some ws_deps) none with e | acc1
  · simp only [h1] at h
    exact absurd h (by simp)
  · simp only [h1] at h
    rcases h2 : process_dependencies cx acc1 dependencies none with e | acc2
    · simp only [h2] at h
      exact absurd h (by simp)
    · simp only [h2] at h
      rcases h3 : process_dependencies cx acc2 dev_deps (some .development)
          with e | acc3
      · simp only [h3] at h
        exact absurd h (by simp)
      · simp only [h3] at h
        rcases h4 : process_dependencies cx acc3 build_deps (some .build)
            with e | acc4
        · simp only [h4] at h
          exact absurd h (by simp)
        · simp only [h4] at h
          obtain ⟨dep, hdep1, hname, hkind⟩ :=
            processDepList_covers ws_deps cx none {} acc1 h1 q hq
          refine ⟨dep, ?_, hname, hkind⟩
          exact collectPlatformDeps_mono _ cx acc4 out h dep
            (process_dependencies_mono _ _ _ _ _ h4 dep
              (process_dependencies_mono _ _ _ _ _ h3 dep
                (process_dependencies_mono _ _ _ _ _ h2 dep hdep1)))


/-- Witness for C9: a workspace table with the single entry `foo` produces
the dependency `foo` of normal kind (plus the no-source warning). -/
theorem into_real_manifest_materializes_ws_deps_witness :
    ∃ dep ∈
      ({ deps := [{ name := "foo", source_id := SourceId.cratesIo }],
         warnings := [noSourceWarning "foo"] } : DepAcc).deps,
      dep.name_in_toml =
        ("foo", DefinedTomlDependency.detailed {}).1 ∧
      dep.kind = DepKind.normal :=
  into_real_manifest_materializes_ws_deps {} [("foo", .detailed {})]
    none none none none
    { deps := [{ name := "foo", source_id := SourceId.cratesIo }],
      warnings := [noSourceWarning "foo"] }
    (by rfl) ("foo", .detailed {}) (List.mem_singleton_self _)

end CargoToml
